import Mathlib

/-
Verification of the sequential tool-calling orchestration core
(backend/ai_generator.py) and the tool registry / search tools
(backend/search_tools.py), as a shallow embedding in Lean 4.

Conventions of the embedding:
* Python strings are Lean `String`; Python ints are Lean `Int`.
* Python `None` is `Option.none`; Python truthiness of strings / ints /
  lists / options is made explicit (`truthyStr`, `truthyInt`, ...).
* Python exceptions are `Except String`; an uncaught exception is an
  `Except.error` result that propagates through `do`-bind, a
  `try/except` is an explicit `match` on the fallible call.
* The external collaborators (the vector store / corpus and the LLM
  boundary) are parameters: records of functions, and a script of
  responses for the LLM.  Mutation of a tool's `last_sources` field is
  explicit state passing.
-/

/-! ## Common data: tool arguments and source references -/

/-- Keyword arguments handed to a tool (`**kwargs` in the source);
the orchestrator passes them through without inspecting them, tools read
individual keys. -/
abbrev ToolArgs := List (String × String)

/-- A source dictionary built by `CourseSearchTool._format_results`:
`{"text": ..., "link": ...}` where the `link` key is only present when a
truthy lesson link was found. -/
structure SourceDict where
  text : String
  link : Option String
  deriving Repr, DecidableEq

/-- Python truthiness of an optional string (`if s:`): false for `None`
and for the empty string. -/
def truthyStr : Option String → Bool
  | none => false
  | some s => s != ""

/-- Python truthiness of an optional integer (`if n:`): false for `None`
and for `0`. -/
def truthyInt : Option Int → Bool
  | none => false
  | some n => n != 0

/-! ## search_tools.py : CourseSearchTool -/

/-- One metadata entry of a search result, as read by
`CourseSearchTool._format_results` (`meta.get('course_title', 'unknown')`,
`meta.get('lesson_number')`). -/
structure SearchMeta where
  course_title : Option String
  lesson_number : Option Int
  deriving Repr, DecidableEq

/-- The result record of the corpus search boundary, per the spec's
corpus interface: documents, parallel metadata, optional error string. -/
structure SearchResults where
  documents : List String
  metadata : List SearchMeta
  error : Option String
  deriving Repr, DecidableEq

/-- Modelled from the spec: `SearchResults.is_empty` is defined in
`vector_store.py`, which is not among the orchestration sources; the
spec's corpus boundary ("a search yielding zero documents" takes the
empty branch) makes it emptiness of `documents`. -/
def SearchResults.is_empty (r : SearchResults) : Bool :=
  r.documents.isEmpty

/-- The corpus collaborator as used by `CourseSearchTool`:
`store.search(...)` and `store.get_lesson_link(...)`. -/
structure VectorStore where
  search : String → Option String → Option Int → SearchResults
  get_lesson_link : String → Int → Option String

/-- The mutable state of a `CourseSearchTool` instance: its
`last_sources` field (initialised to `[]` in `__init__`). -/
structure CourseSearchTool where
  last_sources : List SourceDict
  deriving Repr, DecidableEq

/-- One iteration of the loop in `CourseSearchTool._format_results`:
builds the `[course - Lesson n]\ndoc` entry and the source dictionary
for one (document, metadata) pair. -/
def formatOne (store : VectorStore) (doc : String) (meta : SearchMeta) :
    String × SourceDict :=
  let course_title := meta.course_title.getD "unknown"
  match meta.lesson_number with
  | some n =>
    let lesson_link := store.get_lesson_link course_title n
    let link : Option String :=
      match lesson_link with
      | some l => if l = "" then none else some l
      | none => none
    (s!"[{course_title} - Lesson {n}]\n{doc}",
     { text := s!"{course_title} - Lesson {n}", link := link })
  | none =>
    (s!"[{course_title}]\n{doc}", { text := course_title, link := none })

/-- Embedding of `CourseSearchTool._format_results`: formats the zipped
(documents, metadata) pairs, joins them with blank lines, and stores the
collected sources in `self.last_sources`. -/
def CourseSearchTool.format_results (store : VectorStore)
    (t : CourseSearchTool) (results : SearchResults) :
    String × CourseSearchTool :=
  let pairs := (results.documents.zip results.metadata).map
    (fun p => formatOne store p.1 p.2)
  (String.intercalate "\n\n" (pairs.map Prod.fst),
   { t with last_sources := pairs.map Prod.snd })

/-- Embedding of `CourseSearchTool.execute`: runs the store search, returns the error
string on a truthy error, the parameterised "no relevant content" message
on an empty result set, and otherwise the formatted results (updating
`last_sources`).  The filter clauses follow Python truthiness:
`if course_name:` and `if lesson_number:`. -/
def CourseSearchTool.execute (store : VectorStore) (t : CourseSearchTool)
    (query : String) (course_name : Option String)
    (lesson_number : Option Int) : String × CourseSearchTool :=
  let results := store.search query course_name lesson_number
  if truthyStr results.error then
    (results.error.getD "", t)
  else if results.is_empty then
    let filter_info :=
      (if truthyStr course_name then
        " in course \x27" ++ course_name.getD "" ++ "\x27"
       else "")
      ++ (if truthyInt lesson_number then
        " in lesson " ++ toString (lesson_number.getD 0)
       else "")
    ("No relevant content found" ++ filter_info ++ ".", t)
  else
    CourseSearchTool.format_results store t results

/-! ## search_tools.py : CourseOutlineTool -/

/-- One lesson entry from the parsed `lessons_json`
(`lesson.get('lesson_number')`, `lesson.get('lesson_title')`). -/
structure Lesson where
  lesson_number : Option Int
  lesson_title : Option String
  deriving Repr, DecidableEq

/-- The course catalog metadata record read by
`CourseOutlineTool.execute`.  `lessons_json = none` models an
unparseable (or absent) `lessons_json` entry, which degrades to an empty
lesson list. -/
structure CourseMetadata where
  title : Option String
  course_link : Option String
  instructor : Option String
  lessons_json : Option (List Lesson)
  deriving Repr, DecidableEq

/-- The corpus collaborator as used by `CourseOutlineTool`:
`store._resolve_course_name` and `store.course_catalog.get`.  Both are
fallible (`Except.error` models a raised exception); `catalog_get`
returning `none` models a falsy result or missing/empty `metadatas`. -/
structure OutlineStore where
  resolve_course_name : String → Except String (Option String)
  catalog_get : String → Except String (Option CourseMetadata)

/-- Key of the `sorted(lessons, key=lambda x: x.get('lesson_number', 0))`
call. -/
def lessonKey (l : Lesson) : Int :=
  l.lesson_number.getD 0

/-- The lesson line `  {num}. {title}` with the `N/A` / `Untitled`
defaults of the source. -/
def formatLessonLine (l : Lesson) : String :=
  let num := match l.lesson_number with
    | some n => toString n
    | none => "N/A"
  let title := l.lesson_title.getD "Untitled"
  s!"  {num}. {title}"

/-- Embedding of `CourseOutlineTool.execute`.  The course-name resolution happens
outside the `try` block (a fault there propagates); the catalog access
and formatting happen inside `try/except Exception`, so a fault there is
caught and returned as an `Error retrieving course outline: ...`
string. -/
def CourseOutlineTool.execute (store : OutlineStore)
    (course_title : String) : Except String String := do
  let resolved? ← store.resolve_course_name course_title
  if resolved?.getD "" = "" then
    Except.ok (s!"No course found matching \x27{course_title}\x27. Please check the course name and try again.")
  else
    let resolved_title := resolved?.getD ""
    match store.catalog_get resolved_title with
    | Except.error e =>
      Except.ok ("Error retrieving course outline: " ++ e)
    | Except.ok none =>
      Except.ok (s!"Course metadata not found for \x27{resolved_title}\x27.")
    | Except.ok (some metadata) =>
      let title := metadata.title.getD resolved_title
      let course_link := metadata.course_link.getD ""
      let instructor := metadata.instructor.getD ""
      let lessons := metadata.lessons_json.getD []
      let count := lessons.length
      let response_parts : List String :=
        [s!"**Course:** {title}"]
        ++ (if course_link = "" then [] else [s!"**Course Link:** {course_link}"])
        ++ (if instructor = "" then [] else [s!"**Instructor:** {instructor}"])
        ++ (if lessons.isEmpty then
              ["\nNo lessons found for this course."]
            else
              s!"\n**Lessons ({count} total):**"
              :: (lessons.mergeSort (fun a b => lessonKey a ≤ lessonKey b)).map formatLessonLine)
      Except.ok (String.intercalate "\n" response_parts)

/-! ## search_tools.py : ToolManager -/

/-- A registered tool, seen through the interface the `ToolManager`
uses: the `name` entry of its tool definition (`none` if the key is
absent), whether the instance has a `last_sources` attribute
(`hasattr(tool, 'last_sources')`), the current value of that attribute,
and its fallible `execute` method.  `run` receives the current
`last_sources` value and returns the result string together with the
updated `last_sources` (tools without the attribute ignore both). -/
structure MTool where
  tool_def_name : Option String
  hasLastSources : Bool
  last_sources : List SourceDict
  run : ToolArgs → List SourceDict → Except String (String × List SourceDict)

/-- Lookup in a Python dict modelled as an insertion-ordered association
list. -/
def dictGet (l : List (String × MTool)) (k : String) : Option MTool :=
  match l with
  | [] => none
  | (k0, v) :: rest => if k0 = k then some v else dictGet rest k

/-- Update/insert in a Python dict: an existing key keeps its insertion
position and gets the new value; a new key is appended at the end. -/
def dictInsert (l : List (String × MTool)) (k : String) (v : MTool) :
    List (String × MTool) :=
  match l with
  | [] => [(k, v)]
  | (k0, v0) :: rest =>
    if k0 = k then (k, v) :: rest else (k0, v0) :: dictInsert rest k v

/-- The `ToolManager`: `self.tools` is a name-keyed dict of tools. -/
structure ToolManager where
  tools : List (String × MTool)

/-- Embedding of `ToolManager.register_tool`: reads `tool_def.get("name")`, raises
`ValueError` (modelled as `Except.error`) on a falsy name (absent or
empty), and otherwise assigns `self.tools[tool_name] = tool` - a plain
dict assignment, which silently overwrites an existing entry. -/
def ToolManager.register_tool (mgr : ToolManager) (tool : MTool) :
    Except String ToolManager :=
  let tool_name := tool.tool_def_name
  if tool_name.getD "" = "" then
    Except.error "Tool must have a \x27name\x27 in its definition"
  else
    Except.ok { tools := dictInsert mgr.tools (tool_name.getD "") tool }

/-- Embedding of `ToolManager.execute_tool`: returns the sentinel
`Tool '<name>' not found` string for an unregistered name (without
raising), otherwise runs the tool (whose own exceptions propagate) and
records its updated `last_sources` state. -/
def ToolManager.execute_tool (mgr : ToolManager) (tool_name : String)
    (args : ToolArgs) : Except String (String × ToolManager) :=
  match dictGet mgr.tools tool_name with
  | none => Except.ok ("Tool \x27" ++ tool_name ++ "\x27 not found", mgr)
  | some tool =>
    match tool.run args tool.last_sources with
    | Except.error f => Except.error f
    | Except.ok (r, ls) =>
      Except.ok (r,
        { tools := dictInsert mgr.tools tool_name { tool with last_sources := ls } })

/-- Iteration of `ToolManager.get_last_sources` over the registered
tools in insertion order: the first tool that has a `last_sources`
attribute with a truthy (non-empty) value wins. -/
def lastSourcesScan : List (String × MTool) → List SourceDict
  | [] => []
  | (_, tool) :: rest =>
    if tool.hasLastSources && !tool.last_sources.isEmpty then
      tool.last_sources
    else
      lastSourcesScan rest

/-- Embedding of `ToolManager.get_last_sources`. -/
def ToolManager.get_last_sources (mgr : ToolManager) : List SourceDict :=
  lastSourcesScan mgr.tools

/-- Embedding of `ToolManager.reset_sources`: sets `last_sources = []` on every tool
that has the attribute. -/
def ToolManager.reset_sources (mgr : ToolManager) : ToolManager :=
  { tools := mgr.tools.map (fun p =>
      (p.1, if p.2.hasLastSources then { p.2 with last_sources := [] } else p.2)) }

/-- A sequence of `execute_tool` calls, threading the manager state; a
tool fault aborts the sequence (the exception propagates). -/
def runExecs (mgr : ToolManager) : List (String × ToolArgs) → Except String ToolManager
  | [] => Except.ok mgr
  | (nm, args) :: rest =>
    match mgr.execute_tool nm args with
    | Except.error f => Except.error f
    | Except.ok (_, mgr') => runExecs mgr' rest

/-- The `CourseOutlineTool` wrapped as a registry entry: definition name
`get_course_outline`, no `last_sources` attribute, `execute` reads the
`course_title` keyword argument. -/
def CourseOutlineTool.toMTool (store : OutlineStore) : MTool :=
  { tool_def_name := some "get_course_outline"
    hasLastSources := false
    last_sources := []
    run := fun args ls =>
      match CourseOutlineTool.execute store ((args.lookup "course_title").getD "") with
      | Except.error f => Except.error f
      | Except.ok s => Except.ok (s, ls) }

/-! ## ai_generator.py : data model of the LLM boundary -/

/-- A content block of an LLM response: plain text or a tool-use
(invocation) request carrying an id, a tool name and input arguments. -/
inductive ContentBlock where
  | text (text : String)
  | tool_use (id : String) (name : String) (input : ToolArgs)
  deriving Repr, DecidableEq

/-- A response from the LLM boundary: a stop reason (`"tool_use"` or
anything else, e.g. `"end_turn"`) and a list of content blocks. -/
structure MockResponse where
  stop_reason : String
  content : List ContentBlock
  deriving Repr, DecidableEq

/-- A tool-result dictionary built by the orchestrator:
`{"type": "tool_result", "tool_use_id": ..., "content": ...}`. -/
structure ToolResultBlock where
  tool_use_id : String
  content : String
  deriving Repr, DecidableEq

/-- The content of one conversation message: the plain user query, an
assistant response's content blocks, or a list of tool-result blocks. -/
inductive MsgContent where
  | text (s : String)
  | blocks (bs : List ContentBlock)
  | toolResults (rs : List ToolResultBlock)
  deriving Repr, DecidableEq

/-- One conversation message: a role (`"user"` / `"assistant"`) and its
content. -/
structure Message where
  role : String
  content : MsgContent
  deriving Repr, DecidableEq

/-- A tool definition as passed to the LLM boundary; the orchestrator
never inspects it, it only forwards (or withholds) the list. -/
structure ToolDef where
  name : String
  description : String
  deriving Repr, DecidableEq

/-- The parameters of one `client.messages.create` call that the claims
inspect: messages, system string, the `tools` entry (`none` when the key
is absent from the params dict) and whether `tool_choice` is set. -/
structure LLMRequest where
  messages : List Message
  system : String
  tools : Option (List ToolDef)
  hasToolChoice : Bool
  deriving Repr, DecidableEq

/-- Observation log of one `generate_response` run: every LLM request in
order, and every tool-dispatch batch (the `(name, input)` pairs executed
while handling one tool-use response) in order. -/
structure CallLog where
  calls : List LLMRequest
  batches : List (List (String × ToolArgs))
  deriving Repr, DecidableEq

/-- One scripted behaviour of the LLM boundary at one call: either a
response or a raised fault. -/
abbrev ScriptEntry := Except String MockResponse

/-- The tool manager as the orchestrator uses it:
`tool_manager.execute_tool(name, **input)`, fallibly. -/
abbrev ToolManagerFn := String → ToolArgs → Except String String

/-- Model of `client.messages.create`: consumes the next scripted LLM behaviour
and records the request; an exhausted script or a scripted fault is a
raised exception. -/
def llmCall (script : List ScriptEntry) (log : CallLog) (req : LLMRequest) :
    Except String (MockResponse × List ScriptEntry × CallLog) :=
  match script with
  | [] => Except.error "LLM boundary produced no response"
  | Except.error e :: _ => Except.error e
  | Except.ok r :: rest =>
    Except.ok (r, rest, { log with calls := log.calls ++ [req] })

/-- Model of `response.content[0].text`: raises on an empty content list or when
the first block is not a text block. -/
def firstText : List ContentBlock → Except String String
  | [] => Except.error "IndexError: response content is empty"
  | ContentBlock.text t :: _ => Except.ok t
  | ContentBlock.tool_use _ _ _ :: _ =>
    Except.error "AttributeError: content block has no text attribute"

/-- The `(name, input)` pairs of the tool-use blocks of a response, in
order; this is what one dispatch batch executes. -/
def toolUseCalls (content : List ContentBlock) : List (String × ToolArgs) :=
  content.filterMap (fun b =>
    match b with
    | ContentBlock.tool_use _ nm inp => some (nm, inp)
    | _ => none)

/-- The ids of the tool-use blocks of a response, in order. -/
def toolUseIds (content : List ContentBlock) : List String :=
  content.filterMap (fun b =>
    match b with
    | ContentBlock.tool_use i _ _ => some i
    | _ => none)

/-- The tool-execution loop shared by `_handle_tool_execution` and
`_execute_sequential_rounds`: for every `tool_use` block, call
`tool_manager.execute_tool` and collect a tool-result dictionary with the
block's id; a raised tool fault propagates. -/
def dispatchBatch (tmf : ToolManagerFn) : List ContentBlock →
    Except String (List ToolResultBlock)
  | [] => Except.ok []
  | ContentBlock.text _ :: rest => dispatchBatch tmf rest
  | ContentBlock.tool_use i nm inp :: rest =>
    match tmf nm inp with
    | Except.error f => Except.error f
    | Except.ok r =>
      match dispatchBatch tmf rest with
      | Except.error f => Except.error f
      | Except.ok rs => Except.ok ({ tool_use_id := i, content := r } :: rs)

/-- Appending the collected tool results to the conversation: a single
user message holding all of them, skipped when none were executed
(`if tool_results:`). -/
def appendBatch (messages : List Message) (results : List ToolResultBlock) :
    List Message :=
  if results.isEmpty then messages
  else messages ++ [{ role := "user", content := MsgContent.toolResults results }]

/-- The static system prompt template of `AIGenerator`, formatted with
`max_rounds` (`SYSTEM_PROMPT_TEMPLATE.format(max_rounds=max_rounds)`). -/
def systemPromptFormat (max_rounds : Int) : String :=
  s!" You are an AI assistant specialized in course materials and educational content with access to comprehensive tools for course information.

Tool Usage Guidelines:
- **Course content/material questions**: Use search_course_content for specific educational content
- **Course outline/structure questions**: Use get_course_outline for course title, course link, and lesson listings
- **Sequential tool strategy**: You can make up to {max_rounds} tool calls across separate rounds
- **Strategic usage**: Use get_course_outline first to understand structure, then search_course_content with specific targets
- **Early termination**: Provide final answer when sufficient information is gathered
- Synthesize tool results into accurate, fact-based responses
- If tools yield no results, state this clearly without offering alternatives

Available Tools:
1. **search_course_content**: For searching specific course content and materials
2. **get_course_outline**: For retrieving course structure (title, course link, complete lesson list with numbers and titles)

Sequential Tool Examples:
- Query: \"Find courses similar to lesson 4 of course X\"
- Round 1: get_course_outline(course_name=\"course X\") → get lesson 4 details
- Round 2: search_course_content(query=\"lesson 4 topic\") → find similar content

Response Protocol:
- **General knowledge questions**: Answer using existing knowledge without using tools
- **Course content questions**: Use search_course_content first, then answer
- **Course outline/syllabus questions**: Use get_course_outline first, then answer
- **Complex queries**: Use multiple rounds strategically to gather comprehensive information
- **No meta-commentary**:
 - Provide direct answers only — no reasoning process, tool explanations, or question-type analysis
 - Do not mention \"based on the search results\" or \"using the outline tool\"

All responses must be:
1. **Brief, Concise and focused** - Get to the point quickly
2. **Educational** - Maintain instructional value
3. **Clear** - Use accessible language
4. **Example-supported** - Include relevant examples when they aid understanding
Provide only the direct answer to what was asked.
"

/-- The system content composed in `generate_response`: the formatted
prompt, with the prior-turn history appended when truthy. -/
def systemContent (conversation_history : Option String) (max_rounds : Int) :
    String :=
  let system_prompt := systemPromptFormat max_rounds
  if truthyStr conversation_history then
    system_prompt ++ "\n\nPrevious conversation:\n" ++ conversation_history.getD ""
  else
    system_prompt

/-- The synthesis instruction appended to the system content for the
exhaustion-fallback call. -/
def synthesisSuffix : String :=
  "\n\nSYNTHESIS: Provide final answer based on all gathered information."

/-- Python truthiness of the `tools` argument (`if tools:`): a present,
non-empty list. -/
def truthyTools : Option (List ToolDef) → Bool
  | none => false
  | some l => !l.isEmpty

/-- The `for _ in range(remaining_rounds)` loop of
`_execute_sequential_rounds`, plus the exhaustion fallback after it: at
each remaining round, call the LLM with tools enabled, append the
assistant message, and either dispatch the requested tools and continue,
or terminate early with the response text; when the budget is exhausted,
make one final call with the synthesis system content and no tools. -/
def roundLoop (tmf : ToolManagerFn) (system_content : String)
    (tools : List ToolDef) :
    Nat → List ScriptEntry → CallLog → List Message →
    Except String (String × CallLog)
  | 0, script, log, messages =>
    let req : LLMRequest :=
      { messages := messages
        system := system_content ++ synthesisSuffix
        tools := none
        hasToolChoice := false }
    (match llmCall script log req with
     | Except.error e => Except.error e
     | Except.ok (final_response, _, log1) =>
       match firstText final_response.content with
       | Except.error e => Except.error e
       | Except.ok t => Except.ok (t, log1))
  | n + 1, script, log, messages =>
    let req : LLMRequest :=
      { messages := messages
        system := system_content
        tools := some tools
        hasToolChoice := true }
    (match llmCall script log req with
     | Except.error e => Except.error e
     | Except.ok (response, script1, log1) =>
       let messages1 := messages ++
         [{ role := "assistant", content := MsgContent.blocks response.content }]
       if response.stop_reason = "tool_use" then
         match dispatchBatch tmf response.content with
         | Except.error f => Except.error f
         | Except.ok tool_results =>
           let log2 := { log1 with
             batches := log1.batches ++ [toolUseCalls response.content] }
           roundLoop tmf system_content tools n script1 log2
             (appendBatch messages1 tool_results)
       else
         match firstText response.content with
         | Except.error e => Except.error e
         | Except.ok t => Except.ok (t, log1))

/-- Embedding of `AIGenerator._execute_sequential_rounds`: seeds the conversation with
the user query, processes the initial tool-use response (one dispatch
batch, one consumed round) when present, then runs the remaining-rounds
loop. -/
def executeSequentialRounds (tmf : ToolManagerFn) (script : List ScriptEntry)
    (log : CallLog) (query : String) (system_content : String)
    (tools : List ToolDef) (max_rounds : Int)
    (initial_response : Option MockResponse) :
    Except String (String × CallLog) :=
  let messages : List Message :=
    [{ role := "user", content := MsgContent.text query }]
  match initial_response with
  | some ir =>
    if ir.stop_reason = "tool_use" then
      let messages1 := messages ++
        [{ role := "assistant", content := MsgContent.blocks ir.content }]
      match dispatchBatch tmf ir.content with
      | Except.error f => Except.error f
      | Except.ok tool_results =>
        let log1 := { log with batches := log.batches ++ [toolUseCalls ir.content] }
        roundLoop tmf system_content tools (max_rounds - 1).toNat script log1
          (appendBatch messages1 tool_results)
    else
      roundLoop tmf system_content tools max_rounds.toNat script log messages
  | none =>
    roundLoop tmf system_content tools max_rounds.toNat script log messages

/-- Embedding of `AIGenerator._handle_tool_execution`: the single-round path; executes
the tool batch of the initial response, then makes one follow-up call
whose params keep the base call's system, tools and tool choice
(`base_params.get("tools")` - tools stay available), returning that
response's text without any further tool execution. -/
def handleToolExecution (tmf : ToolManagerFn) (script : List ScriptEntry)
    (log : CallLog) (initial_response : MockResponse) (base : LLMRequest) :
    Except String (String × CallLog) :=
  let messages1 := base.messages ++
    [{ role := "assistant", content := MsgContent.blocks initial_response.content }]
  match dispatchBatch tmf initial_response.content with
  | Except.error f => Except.error f
  | Except.ok tool_results =>
    let log1 := { log with
      batches := log.batches ++ [toolUseCalls initial_response.content] }
    let req : LLMRequest :=
      { messages := appendBatch messages1 tool_results
        system := base.system
        tools := base.tools
        hasToolChoice := base.hasToolChoice }
    match llmCall script log1 req with
    | Except.error e => Except.error e
    | Except.ok (final_response, _, log2) =>
      match firstText final_response.content with
      | Except.error e => Except.error e
      | Except.ok t => Except.ok (t, log2)

/-- Embedding of `AIGenerator.generate_response`: composes the system content, makes
the first LLM call (with tools and automatic tool choice when `tools` is
truthy), and routes on the stop reason: the sequential engine when tools
are truthy and `max_rounds > 1`, the single-round handler otherwise, or
the direct text of the first response. -/
def generate_response (script : List ScriptEntry) (query : String)
    (conversation_history : Option String) (tools : Option (List ToolDef))
    (tool_manager : Option ToolManagerFn) (max_rounds : Int) :
    Except String (String × CallLog) :=
  let system_content := systemContent conversation_history max_rounds
  let toolsParam : Option (List ToolDef) :=
    if truthyTools tools then tools else none
  let req : LLMRequest :=
    { messages := [{ role := "user", content := MsgContent.text query }]
      system := system_content
      tools := toolsParam
      hasToolChoice := toolsParam.isSome }
  match llmCall script { calls := [], batches := [] } req with
  | Except.error e => Except.error e
  | Except.ok (response, script1, log1) =>
    match tool_manager with
    | some tmf =>
      if response.stop_reason = "tool_use" then
        if truthyTools tools && decide (max_rounds > 1) then
          executeSequentialRounds tmf script1 log1 query system_content
            (tools.getD []) max_rounds (some response)
        else
          handleToolExecution tmf script1 log1 response req
      else
        match firstText response.content with
        | Except.error e => Except.error e
        | Except.ok t => Except.ok (t, log1)
    | none =>
      match firstText response.content with
      | Except.error e => Except.error e
      | Except.ok t => Except.ok (t, log1)

/-! ## Helper notions for the theorems -/

/-- The string `s` contains `pat` as a contiguous substring. -/
def strHasSub (s pat : String) : Prop :=
  ∃ a b, s = a ++ pat ++ b

/-- A Boolean view of `Except` success. -/
def isOkB {ε α : Type} : Except ε α → Bool
  | Except.ok _ => true
  | Except.error _ => false

lemma strData_append (a b : String) : (a ++ b).data = a.data ++ b.data := by
  cases a
  cases b
  rfl

lemma strAppend_assoc (a b c : String) : a ++ b ++ c = a ++ (b ++ c) := by
  cases a
  cases b
  cases c
  show String.mk _ = String.mk _
  simp [String.append, List.append_assoc]

lemma strHasSub_char {s pat : String} (h : strHasSub s pat) {c : Char}
    (hc : c ∈ pat.data) : c ∈ s.data := by
  obtain ⟨a, b, rfl⟩ := h
  simp only [strData_append, List.mem_append]
  exact Or.inl (Or.inr hc)

/-! ## Claim C7 : the empty-result message and its filters -/

/-- Claim C7 counterexample: supplying `lesson_number = 0` (a supplied
filter, but falsy in Python) on an empty search yields the bare
`No relevant content found.` message, which does not contain
`in lesson 0`. -/
def cxEmptyStore : VectorStore :=
  { search := fun _ _ _ => { documents := [], metadata := [], error := none }
    get_lesson_link := fun _ _ => none }

/-- Claim C7 is false as stated: with `lesson_number = 0` supplied and an
empty result set, the returned message is the bare one and does not
contain the text `in lesson 0`. -/
theorem empty_search_message_lesson_zero :
    (CourseSearchTool.execute cxEmptyStore { last_sources := [] } "q" none (some 0)).1
      = "No relevant content found."
    ∧ ¬ strHasSub
        (CourseSearchTool.execute cxEmptyStore { last_sources := [] } "q" none (some 0)).1
        "in lesson 0" := by
  constructor
  · rfl
  · intro h
    rw [show (CourseSearchTool.execute cxEmptyStore { last_sources := [] } "q" none (some 0)).1
          = "No relevant content found." from rfl] at h
    have h0 : '0' ∈ ("No relevant content found." : String).data :=
      strHasSub_char h (by decide)
    exact absurd h0 (by decide)

/-- Claim C7 (amended): on an empty, error-free result set, the message
is parameterised by the *truthy* filters: a non-empty `course_name`
contributes `in course '<name>'`, a non-zero `lesson_number` contributes
`in lesson <n>`, and falsy filters (absent, empty string, or zero - per
Python truthiness) leave the bare `No relevant content found.` message;
the message is returned as a value, not raised. -/
theorem empty_search_message_filters
    (store : VectorStore) (t : CourseSearchTool) (q : String)
    (cn : Option String) (ln : Option Int)
    (herr : truthyStr (store.search q cn ln).error = false)
    (hemp : (store.search q cn ln).documents = []) :
    (∀ c, cn = some c → c ≠ "" →
        strHasSub (CourseSearchTool.execute store t q cn ln).1
          (" in course \x27" ++ c ++ "\x27"))
    ∧ (∀ n, ln = some n → n ≠ 0 →
        strHasSub (CourseSearchTool.execute store t q cn ln).1
          (" in lesson " ++ toString n))
    ∧ ((cn = none ∨ cn = some "") → (ln = none ∨ ln = some 0) →
        (CourseSearchTool.execute store t q cn ln).1 = "No relevant content found.") := by
  have hempB : (store.search q cn ln).is_empty = true := by
    simp [SearchResults.is_empty, hemp]
  refine ⟨?_, ?_, ?_⟩
  · intro c hcn hc
    subst hcn
    have hcnT : truthyStr (some c) = true := by simp [truthyStr, hc]
    refine ⟨"No relevant content found",
      (if truthyInt ln then " in lesson " ++ toString (ln.getD 0) else "") ++ ".", ?_⟩
    simp only [CourseSearchTool.execute, herr, hempB, hcnT, Bool.false_eq_true,
      if_false, if_true, Option.getD_some]
    simp [strAppend_assoc]
  · intro n hln hn
    subst hln
    have hlnT : truthyInt (some n) = true := by simp [truthyInt, hn]
    refine ⟨"No relevant content found" ++
      (if truthyStr cn then " in course \x27" ++ cn.getD "" ++ "\x27" else ""), ".", ?_⟩
    simp only [CourseSearchTool.execute, herr, hempB, hlnT, Bool.false_eq_true,
      if_false, if_true, Option.getD_some]
    simp [strAppend_assoc]
  · intro hcn hln
    have hcnF : truthyStr cn = false := by
      rcases hcn with h | h <;> simp [h, truthyStr]
    have hlnF : truthyInt ln = false := by
      rcases hln with h | h <;> simp [h, truthyInt]
    simp only [CourseSearchTool.execute, herr, hempB, hcnF, hlnF, Bool.false_eq_true,
      if_false, if_true]
    rfl

/-- Claim C7 witness: a concrete empty, error-free search with
`course_name = "X"` and `lesson_number = 4` produces a message containing
both filter clauses. -/
theorem empty_search_message_filters_witness :
    strHasSub (CourseSearchTool.execute cxEmptyStore { last_sources := [] } "q"
        (some "X") (some 4)).1 (" in course \x27X\x27")
    ∧ strHasSub (CourseSearchTool.execute cxEmptyStore { last_sources := [] } "q"
        (some "X") (some 4)).1 (" in lesson " ++ toString (4 : Int)) :=
  ⟨(empty_search_message_filters cxEmptyStore { last_sources := [] } "q"
      (some "X") (some 4) (by rfl) (by rfl)).1 "X" rfl (by decide),
   (empty_search_message_filters cxEmptyStore { last_sources := [] } "q"
      (some "X") (some 4) (by rfl) (by rfl)).2.1 4 rfl (by decide)⟩

/-! ## Claim C8 : unregistered dispatch returns the sentinel -/

/-- Claim C8: dispatching an unregistered tool name returns the sentinel
`Tool '<name>' not found` string and leaves the manager unchanged; the
result is an ordinary value (`Except.ok`), never a raised exception,
regardless of the arguments supplied. -/
theorem dispatch_unregistered_sentinel
    (mgr : ToolManager) (nm : String) (args : ToolArgs)
    (h : dictGet mgr.tools nm = none) :
    mgr.execute_tool nm args
      = Except.ok ("Tool \x27" ++ nm ++ "\x27 not found", mgr) := by
  simp [ToolManager.execute_tool, h]

/-- Claim C8 witness: dispatching the unregistered name `missing` on the
empty manager yields `Tool 'missing' not found`. -/
theorem dispatch_unregistered_sentinel_witness :
    ToolManager.execute_tool { tools := [] } "missing" []
      = Except.ok ("Tool \x27missing\x27 not found", { tools := [] }) :=
  dispatch_unregistered_sentinel { tools := [] } "missing" [] rfl

/-! ## Claim C10 : last_sources is only overwritten by a non-empty search -/

/-- Claim C10: a `CourseSearchTool.execute` call that takes the error
branch or the empty-result branch returns the tool state unchanged (its
`last_sources` keeps its previous value); only a search returning at
least one document overwrites `last_sources`, namely with the sources
computed by `_format_results`. -/
theorem search_sources_frame :
    (∀ (store : VectorStore) (t : CourseSearchTool) (q : String)
        (cn : Option String) (ln : Option Int),
        (truthyStr (store.search q cn ln).error = true ∨
          (store.search q cn ln).documents = []) →
        (CourseSearchTool.execute store t q cn ln).2 = t)
    ∧ (∀ (store : VectorStore) (t : CourseSearchTool) (q : String)
        (cn : Option String) (ln : Option Int),
        truthyStr (store.search q cn ln).error = false →
        (store.search q cn ln).documents ≠ [] →
        (CourseSearchTool.execute store t q cn ln).2 =
          (CourseSearchTool.format_results store t (store.search q cn ln)).2) := by
  constructor
  · intro store t q cn ln h
    cases herr : truthyStr (store.search q cn ln).error with
    | true => simp [CourseSearchTool.execute, herr]
    | false =>
      have hemp : (store.search q cn ln).documents = [] := by
        rcases h with h | h
        · rw [herr] at h
          exact absurd h (by simp)
        · exact h
      simp [CourseSearchTool.execute, herr, SearchResults.is_empty, hemp]
  · intro store t q cn ln herr hdoc
    have hempB : (store.search q cn ln).is_empty = false := by
      simp [SearchResults.is_empty, hdoc]
    simp [CourseSearchTool.execute, herr, hempB]

/-- Claim C10 witness: on an empty search the tool keeps the source list
of an earlier successful search. -/
theorem search_sources_frame_witness :
    (CourseSearchTool.execute cxEmptyStore
        { last_sources := [{ text := "C - Lesson 1", link := none }] }
        "q" none none).2
      = { last_sources := [{ text := "C - Lesson 1", link := none }] } :=
  search_sources_frame.1 cxEmptyStore
    { last_sources := [{ text := "C - Lesson 1", link := none }] }
    "q" none none (Or.inr rfl)

/-! ## Claim C2 : tool registration -/

lemma dictGet_dictInsert_self (l : List (String × MTool)) (k : String) (v : MTool) :
    dictGet (dictInsert l k v) k = some v := by
  induction l with
  | nil => simp [dictInsert, dictGet]
  | cons p rest ih =>
    by_cases h : p.1 = k
    · simp [dictInsert, dictGet, h]
    · simp [dictInsert, dictGet, h, ih]

lemma dictGet_dictInsert_ne (l : List (String × MTool)) (k k' : String) (v : MTool)
    (h : k' ≠ k) : dictGet (dictInsert l k v) k' = dictGet l k' := by
  induction l with
  | nil => simp [dictInsert, dictGet, Ne.symm h]
  | cons p rest ih =>
    by_cases hp : p.1 = k
    · subst hp
      simp [dictInsert, dictGet, Ne.symm h]
    · by_cases hp' : p.1 = k'
      · simp [dictInsert, dictGet, hp, hp', h]
      · simp [dictInsert, dictGet, hp, hp', ih]

/-- Tools used by the claim C2 counterexample: two distinct tools that
share the definition name `alpha`. -/
def cxToolOne : MTool :=
  { tool_def_name := some "alpha", hasLastSources := false, last_sources := []
    run := fun _ ls => Except.ok ("one", ls) }

/-- Second registration under the same name for the claim C2
counterexample. -/
def cxToolTwo : MTool :=
  { tool_def_name := some "alpha", hasLastSources := false, last_sources := []
    run := fun _ ls => Except.ok ("two", ls) }

/-- Registering `cxToolOne` and then `cxToolTwo` (same name) on a fresh
manager. -/
def cxRegistered : Except String ToolManager :=
  match ToolManager.register_tool { tools := [] } cxToolOne with
  | Except.error e => Except.error e
  | Except.ok m1 => m1.register_tool cxToolTwo

/-- Claim C2 is false as stated: registering a second tool whose schema
name `alpha` is already registered does not fail - it succeeds and
silently replaces the first tool, as dispatching `alpha` afterwards runs
the second tool. -/
theorem register_duplicate_overwrites :
    isOkB cxRegistered = true
    ∧ (match cxRegistered with
       | Except.ok m2 => (m2.execute_tool "alpha" []).map Prod.fst
       | Except.error e => Except.error e)
      = Except.ok "two" := by
  constructor
  · rfl
  · rfl

/-- Claim C2 (amended): registering a tool whose schema name is absent or
empty fails immediately with the configuration `ValueError`; registering
under a fresh or already-registered non-empty name succeeds and makes the
tool dispatchable under that name - an already-registered name is
silently replaced rather than rejected. -/
theorem register_tool_validation :
    (∀ (mgr : ToolManager) (tool : MTool),
        (tool.tool_def_name = none ∨ tool.tool_def_name = some "") →
        mgr.register_tool tool
          = Except.error "Tool must have a \x27name\x27 in its definition")
    ∧ (∀ (mgr : ToolManager) (tool : MTool) (nm : String),
        tool.tool_def_name = some nm → nm ≠ "" →
        ∃ mgr', mgr.register_tool tool = Except.ok mgr'
          ∧ dictGet mgr'.tools nm = some tool
          ∧ ∀ (args : ToolArgs) (r : String) (ls : List SourceDict),
              tool.run args tool.last_sources = Except.ok (r, ls) →
              ∃ mgr'', mgr'.execute_tool nm args = Except.ok (r, mgr'')) := by
  constructor
  · intro mgr tool h
    rcases h with h | h <;> simp [ToolManager.register_tool, h]
  · intro mgr tool nm hnm hne
    refine ⟨{ tools := dictInsert mgr.tools nm tool }, ?_, ?_, ?_⟩
    · simp [ToolManager.register_tool, hnm, hne]
    · exact dictGet_dictInsert_self mgr.tools nm tool
    · intro args r ls hrun
      refine ⟨{ tools := dictInsert (dictInsert mgr.tools nm tool) nm { tool with last_sources := ls } }, ?_⟩
      simp [ToolManager.execute_tool, dictGet_dictInsert_self, hrun]

/-- Claim C2 witness: registering a tool named `alpha` on the empty
manager succeeds, and it is dispatchable. -/
theorem register_tool_validation_witness :
    ∃ mgr', ToolManager.register_tool { tools := [] } cxToolOne = Except.ok mgr'
      ∧ dictGet mgr'.tools "alpha" = some cxToolOne
      ∧ ∀ (args : ToolArgs) (r : String) (ls : List SourceDict),
          cxToolOne.run args cxToolOne.last_sources = Except.ok (r, ls) →
          ∃ mgr'', mgr'.execute_tool "alpha" args = Except.ok (r, mgr'') :=
  register_tool_validation.2 { tools := [] } cxToolOne "alpha" rfl (by decide)

/-! ## Claim C5 : fault propagation -/

/-- Store for the claim C5 counterexample: name resolution succeeds, the
catalog access raises. -/
def cxBadCatalogStore : OutlineStore :=
  { resolve_course_name := fun _ => Except.ok (some "X")
    catalog_get := fun _ => Except.error "boom" }

/-- Claim C5 is false as stated for corpus faults inside
`CourseOutlineTool`: a catalog fault (`boom`) is caught by the tool's
`try/except` and returned as an error *string*, not propagated as a
fault. -/
theorem outline_catalog_fault_caught :
    CourseOutlineTool.execute cxBadCatalogStore "X"
      = Except.ok "Error retrieving course outline: boom" := by
  rfl

/-- Claim C5 (amended): a tool execution that raises propagates uncaught
through the orchestration loop out of `generate_response` (on both the
sequential and the single-round path), an LLM boundary fault propagates
uncaught, and a fault in course-name resolution propagates out of
`CourseOutlineTool.execute`; the core makes no retry.  However, a corpus
fault raised during the outline tool's catalog metadata retrieval is
caught by that tool's `try/except` and returned as an
`Error retrieving course outline:` string instead of propagating. -/
theorem fault_propagation :
    (∀ (tmf : ToolManagerFn) (f i nm : String) (a : ToolArgs)
        (restBlocks : List ContentBlock) (r0 : MockResponse)
        (rest : List ScriptEntry) (query : String) (hist : Option String)
        (tools : Option (List ToolDef)) (mr : Int),
        r0.stop_reason = "tool_use" →
        r0.content = ContentBlock.tool_use i nm a :: restBlocks →
        tmf nm a = Except.error f →
        generate_response (Except.ok r0 :: rest) query hist tools (some tmf) mr
          = Except.error f)
    ∧ (∀ (f : String) (rest : List ScriptEntry) (query : String)
        (hist : Option String) (tools : Option (List ToolDef))
        (tm : Option ToolManagerFn) (mr : Int),
        generate_response (Except.error f :: rest) query hist tools tm mr
          = Except.error f)
    ∧ (∀ (store : OutlineStore) (title f : String),
        store.resolve_course_name title = Except.error f →
        CourseOutlineTool.execute store title = Except.error f)
    ∧ (∀ (store : OutlineStore) (title resolved f : String),
        store.resolve_course_name title = Except.ok (some resolved) →
        resolved ≠ "" →
        store.catalog_get resolved = Except.error f →
        CourseOutlineTool.execute store title
          = Except.ok ("Error retrieving course outline: " ++ f)) := by
  refine ⟨?_, ?_, ?_, ?_⟩
  · intro tmf f i nm a restBlocks r0 rest query hist tools mr hstop hcontent htmf
    cases hcase : truthyTools tools && decide (mr > 1) with
    | true =>
      simp [generate_response, llmCall, hstop, hcase, executeSequentialRounds,
        dispatchBatch, hcontent, htmf]
    | false =>
      simp [generate_response, llmCall, hstop, hcase, handleToolExecution,
        dispatchBatch, hcontent, htmf]
  · intro f rest query hist tools tm mr
    simp [generate_response, llmCall]
  · intro store title f h
    simp [CourseOutlineTool.execute, h, Bind.bind, Except.bind]
  · intro store title resolved f hres hne hcat
    simp [CourseOutlineTool.execute, hres, Bind.bind, Except.bind, hne, hcat]

/-- Response fixture for the claim C5 witness: one tool-use block. -/
def wToolUseResponse : MockResponse :=
  { stop_reason := "tool_use"
    content := [ContentBlock.tool_use "id1" "search_course_content" [("query", "q")]] }

/-- Tool definition fixture for the orchestration witnesses. -/
def wToolDef : ToolDef :=
  { name := "search_course_content", description := "Search course content" }

/-- Store fixture for the claim C5 witness: course-name resolution
raises. -/
def wBadResolverStore : OutlineStore :=
  { resolve_course_name := fun _ => Except.error "resolver down"
    catalog_get := fun _ => Except.ok none }

/-- Claim C5 witness: a concrete faulting tool aborts a concrete
sequential run with its fault, a scripted LLM fault propagates, and a
resolution fault propagates out of the outline tool. -/
theorem fault_propagation_witness :
    generate_response [Except.ok wToolUseResponse] "q" none (some [wToolDef])
        (some (fun _ _ => Except.error "Tool execution failed")) 2
      = Except.error "Tool execution failed"
    ∧ generate_response [Except.error "llm down"] "q" none none none 2
      = Except.error "llm down"
    ∧ CourseOutlineTool.execute wBadResolverStore "X"
      = Except.error "resolver down" :=
  ⟨fault_propagation.1 (fun _ _ => Except.error "Tool execution failed")
      "Tool execution failed" "id1" "search_course_content" [("query", "q")] []
      wToolUseResponse [] "q" none (some [wToolDef]) 2 rfl rfl rfl,
   fault_propagation.2.1 "llm down" [] "q" none none none 2,
   fault_propagation.2.2.1 wBadResolverStore "X" "resolver down" rfl⟩

/-! ## Claim C6 : tool-result round-trip within a batch -/

lemma dispatchBatch_ids (tmf : ToolManagerFn) :
    ∀ (content : List ContentBlock) (results : List ToolResultBlock),
      dispatchBatch tmf content = Except.ok results →
      results.map ToolResultBlock.tool_use_id = toolUseIds content := by
  intro content
  induction content with
  | nil =>
    intro results h
    simp [dispatchBatch] at h
    simp [← h, toolUseIds]
  | cons b rest ih =>
    intro results h
    cases b with
    | text s =>
      simp only [dispatchBatch] at h
      simp [toolUseIds, ih results h]
    | tool_use i nm inp =>
      simp only [dispatchBatch] at h
      cases htmf : tmf nm inp with
      | error f => rw [htmf] at h; exact absurd h (by simp)
      | ok r =>
        rw [htmf] at h
        cases hrest : dispatchBatch tmf rest with
        | error f => rw [hrest] at h; exact absurd h (by simp)
        | ok rs =>
          rw [hrest] at h
          injection h with h
          subst h
          simp [toolUseIds, ih rs hrest]

/-- Claim C6: when a response's content holds `n ≥ 1` tool-invocation
blocks and the batch executes without a fault, exactly one tool-result
block is produced per invocation, in the invocations' order, each
carrying its originating invocation's id as `tool_use_id`, and all of
them are appended to the conversation as one single user message. -/
theorem tool_result_roundtrip (tmf : ToolManagerFn)
    (content : List ContentBlock) (results : List ToolResultBlock)
    (hok : dispatchBatch tmf content = Except.ok results)
    (hne : toolUseIds content ≠ []) (messages : List Message) :
    results.length = (toolUseIds content).length
    ∧ results.map ToolResultBlock.tool_use_id = toolUseIds content
    ∧ appendBatch messages results
      = messages ++ [{ role := "user", content := MsgContent.toolResults results }] := by
  have hids := dispatchBatch_ids tmf content results hok
  have hlen : results.length = (toolUseIds content).length := by
    rw [← hids, List.length_map]
  have hres : ¬ results.isEmpty = true := by
    intro h
    rw [List.isEmpty_iff] at h
    subst h
    simp at hids
    exact hne hids
  refine ⟨hlen, hids, ?_⟩
  simp [appendBatch, hres]

/-- Claim C6 witness: a concrete two-invocation batch produces two
results with matching ids in order, appended as one user message. -/
theorem tool_result_roundtrip_witness :
    ([{ tool_use_id := "a1", content := "Mock result for get_course_outline" },
      { tool_use_id := "b2", content := "Mock result for search_course_content" }]
        : List ToolResultBlock).map ToolResultBlock.tool_use_id
      = toolUseIds
          [ContentBlock.tool_use "a1" "get_course_outline" [("course_title", "X")],
           ContentBlock.tool_use "b2" "search_course_content" [("query", "q")]] :=
  (tool_result_roundtrip
    (fun nm _ => Except.ok ("Mock result for " ++ nm))
    [ContentBlock.tool_use "a1" "get_course_outline" [("course_title", "X")],
     ContentBlock.tool_use "b2" "search_course_content" [("query", "q")]]
    [{ tool_use_id := "a1", content := "Mock result for get_course_outline" },
     { tool_use_id := "b2", content := "Mock result for search_course_content" }]
    rfl (by decide) []).2.1

/-! ## Claim C4 : no tool request means exactly one call -/

/-- Claim C4: for every `max_rounds ≥ 1`, when the first LLM response's
stop reason is not `tool_use`, `generate_response` makes exactly that one
LLM call, dispatches no tool, and returns the first response's text. -/
theorem direct_response_single_call
    (rest : List ScriptEntry) (r : MockResponse) (t : String)
    (more : List ContentBlock) (query : String) (hist : Option String)
    (tools : Option (List ToolDef)) (tm : Option ToolManagerFn) (mr : Int)
    (hmr : 1 ≤ mr) (hstop : r.stop_reason ≠ "tool_use")
    (hcontent : r.content = ContentBlock.text t :: more) :
    (generate_response (Except.ok r :: rest) query hist tools tm mr).map
        (fun p => (p.1, p.2.calls.length, p.2.batches))
      = Except.ok (t, 1, []) := by
  cases tm with
  | none => simp [generate_response, llmCall, firstText, hcontent, Except.map]
  | some tmf => simp [generate_response, llmCall, hstop, firstText, hcontent, Except.map]

/-- Claim C4 witness: a concrete text-only first response is returned
directly after one call and zero batches. -/
theorem direct_response_single_call_witness :
    (generate_response
        [Except.ok { stop_reason := "end_turn", content := [ContentBlock.text "Final"] }]
        "q" none (some [wToolDef]) (some (fun _ _ => Except.ok "unused")) 2).map
        (fun p => (p.1, p.2.calls.length, p.2.batches))
      = Except.ok ("Final", 1, []) :=
  direct_response_single_call []
    { stop_reason := "end_turn", content := [ContentBlock.text "Final"] }
    "Final" [] "q" none (some [wToolDef]) (some (fun _ _ => Except.ok "unused")) 2
    (by decide) (by decide) rfl

/-! ## Round-loop lemmas for claims C1 and C3 -/

lemma dispatchBatch_isOk (tmf : ToolManagerFn)
    (hok : ∀ nm a, ∃ s, tmf nm a = Except.ok s) :
    ∀ content, ∃ results, dispatchBatch tmf content = Except.ok results := by
  intro content
  induction content with
  | nil => exact ⟨[], rfl⟩
  | cons b rest ih =>
    obtain ⟨rs, hrs⟩ := ih
    cases b with
    | text s => exact ⟨rs, by simpa [dispatchBatch] using hrs⟩
    | tool_use i nm inp =>
      obtain ⟨r, hr⟩ := hok nm inp
      exact ⟨{ tool_use_id := i, content := r } :: rs,
        by simp [dispatchBatch, hr, hrs]⟩

lemma roundLoop_exhaust (tmf : ToolManagerFn)
    (hok : ∀ nm a, ∃ s, tmf nm a = Except.ok s)
    (sys : String) (ts : List ToolDef) :
    ∀ (rs : List MockResponse),
      (∀ r ∈ rs, r.stop_reason = "tool_use") →
      ∀ (final : MockResponse) (ftext : String),
        firstText final.content = Except.ok ftext →
      ∀ (extra : List ScriptEntry) (log : CallLog) (messages : List Message),
      ∃ log', roundLoop tmf sys ts rs.length
          (rs.map Except.ok ++ (Except.ok final :: extra)) log messages
          = Except.ok (ftext, log')
        ∧ log'.calls.length = log.calls.length + rs.length + 1
        ∧ log'.batches = log.batches ++ rs.map (fun r => toolUseCalls r.content)
        ∧ ∃ m, log'.calls.getLast? = some
            { messages := m, system := sys ++ synthesisSuffix, tools := none,
              hasToolChoice := false } := by
  intro rs
  induction rs with
  | nil =>
    intro _ final ftext hf extra log messages
    refine ⟨{ log with calls := log.calls ++
        [{ messages := messages, system := sys ++ synthesisSuffix, tools := none, hasToolChoice := false }] },
      ?_, by simp, by simp, ⟨messages, by simp⟩⟩
    simp [roundLoop, llmCall, hf]
  | cons r rs' ih =>
    intro hrs final ftext hf extra log messages
    have hstop : r.stop_reason = "tool_use" := hrs r (by simp)
    obtain ⟨results, hres⟩ := dispatchBatch_isOk tmf hok r.content
    obtain ⟨log', hrun, hlen, hbat, hlast⟩ := ih
      (fun x hx => hrs x (by simp [hx]))
      final ftext hf extra
      { calls := log.calls ++
          [{ messages := messages, system := sys, tools := some ts, hasToolChoice := true }],
        batches := log.batches ++ [toolUseCalls r.content] }
      (appendBatch
        (messages ++ [{ role := "assistant", content := MsgContent.blocks r.content }])
        results)
    refine ⟨log', ?_, ?_, ?_, hlast⟩
    · simp only [List.length_cons, List.map_cons, List.cons_append, roundLoop,
        llmCall, hstop, if_true, hres]
      exact hrun
    · simp only [List.length_append, List.length_cons, List.length_nil] at hlen
      simp only [List.length_cons]
      omega
    · rw [hbat]
      simp

lemma roundLoop_early (tmf : ToolManagerFn)
    (hok : ∀ nm a, ∃ s, tmf nm a = Except.ok s)
    (sys : String) (ts : List ToolDef) :
    ∀ (rs : List MockResponse),
      (∀ r ∈ rs, r.stop_reason = "tool_use") →
      ∀ (final : MockResponse), final.stop_reason ≠ "tool_use" →
      ∀ (ftext : String), firstText final.content = Except.ok ftext →
      ∀ (n : Nat), rs.length < n →
      ∀ (extra : List ScriptEntry) (log : CallLog) (messages : List Message),
      ∃ log', roundLoop tmf sys ts n
          (rs.map Except.ok ++ (Except.ok final :: extra)) log messages
          = Except.ok (ftext, log')
        ∧ log'.batches = log.batches ++ rs.map (fun r => toolUseCalls r.content)
        ∧ ∃ newCalls, log'.calls = log.calls ++ newCalls
            ∧ newCalls.length = rs.length + 1
            ∧ ∀ c ∈ newCalls, c.tools = some ts := by
  intro rs
  induction rs with
  | nil =>
    intro _ final hfstop ftext hf n hn extra log messages
    match n, hn with
    | n + 1, _ =>
      refine ⟨{ log with calls := log.calls ++
          [{ messages := messages, system := sys, tools := some ts, hasToolChoice := true }] },
        ?_, by simp,
        ⟨[{ messages := messages, system := sys, tools := some ts, hasToolChoice := true }],
          by simp, by simp, by simp⟩⟩
      simp [roundLoop, llmCall, hfstop, hf]
  | cons r rs' ih =>
    intro hrs final hfstop ftext hf n hn extra log messages
    match n, hn with
    | n + 1, hn =>
      have hstop : r.stop_reason = "tool_use" := hrs r (by simp)
      obtain ⟨results, hres⟩ := dispatchBatch_isOk tmf hok r.content
      obtain ⟨log', hrun, hbat, newCalls, hcalls, hnlen, hntools⟩ := ih
        (fun x hx => hrs x (by simp [hx]))
        final hfstop ftext hf n (by simpa using hn) extra
        { calls := log.calls ++
            [{ messages := messages, system := sys, tools := some ts, hasToolChoice := true }],
          batches := log.batches ++ [toolUseCalls r.content] }
        (appendBatch
          (messages ++ [{ role := "assistant", content := MsgContent.blocks r.content }])
          results)
      refine ⟨log', ?_, ?_,
        ⟨{ messages := messages, system := sys, tools := some ts, hasToolChoice := true } :: newCalls,
          ?_, by simp [hnlen], ?_⟩⟩
      · simp only [List.map_cons, List.cons_append, roundLoop, llmCall, hstop,
          if_true, hres]
        exact hrun
      · rw [hbat]
        simp
      · rw [hcalls]
        simp
      · intro c hc
        rcases List.mem_cons.mp hc with hc | hc
        · subst hc
          rfl
        · exact hntools c hc

/-! ## Claim C1 : exhausting every round forces the synthesis call -/

/-- Tool manager fixture used by the orchestration witnesses: always
returns a mock result. -/
def wTmf : ToolManagerFn := fun nm _ => Except.ok ("Mock result for " ++ nm)

lemma wTmf_ok : ∀ nm a, ∃ s, wTmf nm a = Except.ok s :=
  fun nm _ => ⟨"Mock result for " ++ nm, rfl⟩

/-- Final text response fixture for the orchestration witnesses. -/
def wFinalResponse : MockResponse :=
  { stop_reason := "end_turn", content := [ContentBlock.text "Final"] }

/-- Claim C1 is false as stated at `max_rounds = 1`: the LLM requests a
tool in the only round, one dispatch batch and two LLM calls occur, but
the final call is made via `_handle_tool_execution` with the tools still
enabled (`tools = some [...]` on both calls) and with the unchanged
round system content rather than an appended synthesis instruction. -/
theorem singleRound_final_call_keeps_tools :
    (generate_response [Except.ok wToolUseResponse, Except.ok wFinalResponse]
        "q" none (some [wToolDef]) (some wTmf) 1).map
        (fun p => (p.1, p.2.calls.length, p.2.batches.length,
          p.2.calls.map (fun c => c.tools)))
      = Except.ok ("Final", 2, 1, [some [wToolDef], some [wToolDef]])
    ∧ (generate_response [Except.ok wToolUseResponse, Except.ok wFinalResponse]
        "q" none (some [wToolDef]) (some wTmf) 1).map
        (fun p => p.2.calls.map (fun c => c.system))
      = Except.ok [systemContent none 1, systemContent none 1] := by
  constructor
  · rfl
  · rfl

lemma generate_response_toSeq
    (tmf : ToolManagerFn) (script1 : List ScriptEntry) (r0 : MockResponse)
    (h0stop : r0.stop_reason = "tool_use") (query : String) (hist : Option String)
    (ts : List ToolDef) (hts : ts ≠ []) (mr : Int) (hmr : 1 < mr) :
    generate_response (Except.ok r0 :: script1) query hist (some ts) (some tmf) mr
      = executeSequentialRounds tmf script1
          { calls :=
              [{ messages := [{ role := "user", content := MsgContent.text query }],
                 system := systemContent hist mr, tools := some ts, hasToolChoice := true }],
            batches := [] }
          query (systemContent hist mr) ts mr (some r0) := by
  have htt : truthyTools (some ts) = true := by
    simp [truthyTools, List.isEmpty_iff, hts]
  simp [generate_response, llmCall, h0stop, htt, hmr]

lemma executeSequentialRounds_initial
    (tmf : ToolManagerFn) (script : List ScriptEntry) (log : CallLog)
    (query sys : String) (ts : List ToolDef) (mr : Int) (r0 : MockResponse)
    (h0stop : r0.stop_reason = "tool_use") (results0 : List ToolResultBlock)
    (hres : dispatchBatch tmf r0.content = Except.ok results0) :
    executeSequentialRounds tmf script log query sys ts mr (some r0)
      = roundLoop tmf sys ts (mr - 1).toNat script
          { log with batches := log.batches ++ [toolUseCalls r0.content] }
          (appendBatch
            ([{ role := "user", content := MsgContent.text query }] ++
              [{ role := "assistant", content := MsgContent.blocks r0.content }])
            results0) := by
  simp [executeSequentialRounds, h0stop, hres]

/-- Claim C1 (amended, restricted to `max_rounds ≥ 2` as the
counterexample forces - at `max_rounds = 1` the batch and call counts
still hold but the final call keeps tools enabled and appends no
synthesis instruction): if the LLM requests tool use in every round up
to `max_rounds`, exactly `max_rounds` tool-dispatch batches occur (each
non-empty), exactly `max_rounds + 1` LLM calls occur in total, and the
final (synthesis) call is made with tools disabled and the synthesis
instruction appended to the system content; no batch follows it, so it
never itself triggers tool execution. -/
theorem sequential_exhaustion_synthesis
    (tmf : ToolManagerFn) (hok : ∀ nm a, ∃ s, tmf nm a = Except.ok s)
    (query : String) (hist : Option String) (ts : List ToolDef) (hts : ts ≠ [])
    (mr : Int) (hmr : 2 ≤ mr)
    (r0 : MockResponse) (h0stop : r0.stop_reason = "tool_use")
    (h0blocks : toolUseCalls r0.content ≠ [])
    (rs : List MockResponse) (hlen0 : rs.length = mr.toNat - 1)
    (hrs : ∀ r ∈ rs, r.stop_reason = "tool_use" ∧ toolUseCalls r.content ≠ [])
    (final : MockResponse) (ftext : String)
    (hf : firstText final.content = Except.ok ftext)
    (extra : List ScriptEntry) :
    ∃ log, generate_response
        (Except.ok r0 :: (rs.map Except.ok ++ (Except.ok final :: extra)))
        query hist (some ts) (some tmf) mr = Except.ok (ftext, log)
      ∧ log.calls.length = mr.toNat + 1
      ∧ log.batches.length = mr.toNat
      ∧ (∀ b ∈ log.batches, b ≠ [])
      ∧ ∃ m, log.calls.getLast? = some
          { messages := m, system := systemContent hist mr ++ synthesisSuffix,
            tools := none, hasToolChoice := false } := by
  have htt : truthyTools (some ts) = true := by
    simp [truthyTools, List.isEmpty_iff, hts]
  obtain ⟨results0, hres0⟩ := dispatchBatch_isOk tmf hok r0.content
  have hnat : (mr - 1).toNat = rs.length := by omega
  obtain ⟨log', hrun, hlen, hbat, hlast⟩ := roundLoop_exhaust tmf hok
    (systemContent hist mr) ts rs (fun x hx => (hrs x hx).1) final ftext hf extra
    { calls :=
        [{ messages := [{ role := "user", content := MsgContent.text query }],
           system := systemContent hist mr, tools := some ts, hasToolChoice := true }],
      batches := [toolUseCalls r0.content] }
    (appendBatch
      ([{ role := "user", content := MsgContent.text query }] ++
        [{ role := "assistant", content := MsgContent.blocks r0.content }])
      results0)
  refine ⟨log', ?_, ?_, ?_, ?_, hlast⟩
  · rw [generate_response_toSeq tmf _ r0 h0stop query hist ts hts mr (by omega),
      executeSequentialRounds_initial tmf _ _ query (systemContent hist mr) ts mr r0
        h0stop results0 hres0, hnat]
    exact hrun
  · simp only [List.length_cons, List.length_nil] at hlen
    omega
  · rw [hbat]
    simp
    omega
  · rw [hbat]
    intro b hb
    simp only [List.cons_append, List.nil_append, List.mem_cons, List.mem_map] at hb
    rcases hb with hb | ⟨x, hx, hxb⟩
    · rw [hb]
      exact h0blocks
    · rw [← hxb]
      exact (hrs x hx).2
  
/-- Claim C1 witness: with `max_rounds = 2` and tool requests in both
rounds, a concrete run makes three calls, two non-empty dispatch
batches, and a final tools-disabled synthesis call. -/
theorem sequential_exhaustion_synthesis_witness :
    ∃ log, generate_response
        (Except.ok wToolUseResponse ::
          ([wToolUseResponse].map Except.ok ++ (Except.ok wFinalResponse :: [])))
        "q" none (some [wToolDef]) (some wTmf) 2 = Except.ok ("Final", log)
      ∧ log.calls.length = (2 : Int).toNat + 1
      ∧ log.batches.length = (2 : Int).toNat
      ∧ (∀ b ∈ log.batches, b ≠ [])
      ∧ ∃ m, log.calls.getLast? = some
          { messages := m, system := systemContent none 2 ++ synthesisSuffix,
            tools := none, hasToolChoice := false } :=
  sequential_exhaustion_synthesis wTmf wTmf_ok "q" none [wToolDef] (by decide)
    2 (by decide) wToolUseResponse rfl (by decide) [wToolUseResponse] (by decide)
    (by
      intro r hr
      simp only [List.mem_singleton] at hr
      subst hr
      exact ⟨rfl, by decide⟩)
    wFinalResponse "Final" rfl []

/-! ## Claim C3 : early termination after k tool rounds -/

/-- Claim C3: when the LLM requests tools in rounds `1..k`
(`1 ≤ k < max_rounds`) and answers with plain text in round `k + 1`,
exactly `k` (non-empty) tool-dispatch batches and exactly `k + 1` LLM
calls occur, every call is made with tools enabled (so no synthesis call
happens), the returned string is the round-`(k+1)` response text, and
the remaining script is never consumed. -/
theorem sequential_early_termination
    (tmf : ToolManagerFn) (hok : ∀ nm a, ∃ s, tmf nm a = Except.ok s)
    (query : String) (hist : Option String) (ts : List ToolDef) (hts : ts ≠ [])
    (mr : Int) (k : Nat) (hk1 : 1 ≤ k) (hk2 : (k : Int) < mr)
    (r0 : MockResponse) (h0stop : r0.stop_reason = "tool_use")
    (h0blocks : toolUseCalls r0.content ≠ [])
    (rs : List MockResponse) (hlen0 : rs.length = k - 1)
    (hrs : ∀ r ∈ rs, r.stop_reason = "tool_use" ∧ toolUseCalls r.content ≠ [])
    (final : MockResponse) (hfstop : final.stop_reason ≠ "tool_use")
    (ftext : String) (hf : firstText final.content = Except.ok ftext)
    (extra : List ScriptEntry) :
    ∃ log, generate_response
        (Except.ok r0 :: (rs.map Except.ok ++ (Except.ok final :: extra)))
        query hist (some ts) (some tmf) mr = Except.ok (ftext, log)
      ∧ log.calls.length = k + 1
      ∧ log.batches.length = k
      ∧ (∀ b ∈ log.batches, b ≠ [])
      ∧ ∀ c ∈ log.calls, c.tools = some ts := by
  have htt : truthyTools (some ts) = true := by
    simp [truthyTools, List.isEmpty_iff, hts]
  obtain ⟨results0, hres0⟩ := dispatchBatch_isOk tmf hok r0.content
  have hnat : rs.length < (mr - 1).toNat := by omega
  obtain ⟨log', hrun, hbat, newCalls, hcalls, hnlen, hntools⟩ := roundLoop_early
    tmf hok (systemContent hist mr) ts rs (fun x hx => (hrs x hx).1)
    final hfstop ftext hf (mr - 1).toNat hnat extra
    { calls :=
        [{ messages := [{ role := "user", content := MsgContent.text query }],
           system := systemContent hist mr, tools := some ts, hasToolChoice := true }],
      batches := [toolUseCalls r0.content] }
    (appendBatch
      ([{ role := "user", content := MsgContent.text query }] ++
        [{ role := "assistant", content := MsgContent.blocks r0.content }])
      results0)
  refine ⟨log', ?_, ?_, ?_, ?_, ?_⟩
  · rw [generate_response_toSeq tmf _ r0 h0stop query hist ts hts mr (by omega),
      executeSequentialRounds_initial tmf _ _ query (systemContent hist mr) ts mr r0
        h0stop results0 hres0]
    exact hrun
  · rw [hcalls]
    simp only [List.length_append, List.length_cons, List.length_nil, hnlen]
    omega
  · rw [hbat]
    simp
    omega
  · rw [hbat]
    intro b hb
    simp only [List.cons_append, List.nil_append, List.mem_cons, List.mem_map] at hb
    rcases hb with hb | ⟨x, hx, hxb⟩
    · rw [hb]
      exact h0blocks
    · rw [← hxb]
      exact (hrs x hx).2
  · rw [hcalls]
    intro c hc
    simp only [List.mem_append, List.mem_singleton] at hc
    rcases hc with hc | hc
    · subst hc
      rfl
    · exact hntools c hc

/-- Claim C3 witness: with `max_rounds = 3`, a tool request in round 1
and plain text in round 2, a concrete run makes two calls and one batch,
all calls with tools enabled, and never touches the rest of the
script. -/
theorem sequential_early_termination_witness :
    ∃ log, generate_response
        (Except.ok wToolUseResponse ::
          (([] : List MockResponse).map Except.ok ++
            (Except.ok wFinalResponse :: [Except.error "never reached"])))
        "q" none (some [wToolDef]) (some wTmf) 3 = Except.ok ("Final", log)
      ∧ log.calls.length = 1 + 1
      ∧ log.batches.length = 1
      ∧ (∀ b ∈ log.batches, b ≠ [])
      ∧ ∀ c ∈ log.calls, c.tools = some [wToolDef] :=
  sequential_early_termination wTmf wTmf_ok "q" none [wToolDef] (by decide)
    3 1 (by decide) (by decide) wToolUseResponse rfl (by decide) [] rfl
    (by intro r hr; exact absurd hr (List.not_mem_nil r))
    wFinalResponse (by decide) "Final" rfl [Except.error "never reached"]

/-! ## Claim C9 : reset_sources, outline-only queries, and last_sources -/

/-- Every registered tool that has a `last_sources` attribute currently
holds an empty source list. -/
def noSources (l : List (String × MTool)) : Prop :=
  ∀ p ∈ l, p.2.hasLastSources = true → p.2.last_sources = []

lemma mem_dictInsert (l : List (String × MTool)) (k : String) (v : MTool) :
    ∀ p ∈ dictInsert l k v, p = (k, v) ∨ p ∈ l := by
  induction l with
  | nil =>
    intro p hp
    simp [dictInsert] at hp
    exact Or.inl hp
  | cons q rest ih =>
    intro p hp
    by_cases hq : q.1 = k
    · simp only [dictInsert, hq, if_true] at hp
      rcases List.mem_cons.mp hp with hp | hp
      · exact Or.inl hp
      · exact Or.inr (List.mem_cons_of_mem q hp)
    · simp only [dictInsert, hq, if_false] at hp
      rcases List.mem_cons.mp hp with hp | hp
      · exact Or.inr (by simp [hp])
      · rcases ih p hp with h | h
        · exact Or.inl h
        · exact Or.inr (List.mem_cons_of_mem q h)

lemma reset_sources_noSources (mgr : ToolManager) :
    noSources mgr.reset_sources.tools := by
  intro p hp hls
  simp only [ToolManager.reset_sources, List.mem_map] at hp
  obtain ⟨q, _, rfl⟩ := hp
  by_cases hq : q.2.hasLastSources
  · simp [hq]
  · simp only [hq, if_false] at hls ⊢
    exact absurd hls (by simp [hq])

lemma dictGet_mem (l : List (String × MTool)) (k : String) (v : MTool)
    (h : dictGet l k = some v) : (k, v) ∈ l := by
  induction l with
  | nil => simp [dictGet] at h
  | cons q rest ih =>
    by_cases hq : q.1 = k
    · simp only [dictGet, hq, if_true, Option.some.injEq] at h
      subst h
      rw [← hq]
      simp
    · simp only [dictGet, hq, if_false] at h
      exact List.mem_cons_of_mem q (ih h)

lemma execute_tool_hasLS (mgr : ToolManager) (nm : String) (args : ToolArgs)
    (r : String) (mgr' : ToolManager)
    (h : mgr.execute_tool nm args = Except.ok (r, mgr')) (k : String) :
    (dictGet mgr'.tools k).map MTool.hasLastSources
      = (dictGet mgr.tools k).map MTool.hasLastSources := by
  unfold ToolManager.execute_tool at h
  split at h
  · simp only [Except.ok.injEq, Prod.mk.injEq] at h
    rw [← h.2]
  · rename_i tool hg
    split at h
    · simp at h
    · rename_i r' ls hrun
      simp only [Except.ok.injEq, Prod.mk.injEq] at h
      rw [← h.2]
      by_cases hk : k = nm
      · subst hk
        rw [dictGet_dictInsert_self, hg]
        simp
      · rw [dictGet_dictInsert_ne _ _ _ _ hk]

lemma execute_tool_noSources (mgr : ToolManager) (nm : String) (args : ToolArgs)
    (r : String) (mgr' : ToolManager)
    (hns : noSources mgr.tools)
    (hdisp : ∀ tool, dictGet mgr.tools nm = some tool → tool.hasLastSources = false)
    (h : mgr.execute_tool nm args = Except.ok (r, mgr')) :
    noSources mgr'.tools := by
  unfold ToolManager.execute_tool at h
  split at h
  · simp only [Except.ok.injEq, Prod.mk.injEq] at h
    rw [← h.2]
    exact hns
  · rename_i tool hg
    split at h
    · simp at h
    · rename_i r' ls hrun
      simp only [Except.ok.injEq, Prod.mk.injEq] at h
      rw [← h.2]
      intro p hp hls
      rcases mem_dictInsert _ _ _ p hp with hc | hc
      · subst hc
        exact absurd hls (by simp [hdisp tool hg])
      · exact hns p hc hls

lemma noSources_scan (l : List (String × MTool)) (h : noSources l) :
    lastSourcesScan l = [] := by
  induction l with
  | nil => rfl
  | cons q rest ih =>
    have hq := h q (by simp)
    by_cases hls : q.2.hasLastSources
    · simp only [lastSourcesScan, hls, hq hls, List.isEmpty_nil, Bool.not_true,
        Bool.and_false, if_false]
      exact ih (fun p hp => h p (List.mem_cons_of_mem q hp))
    · simp only [lastSourcesScan, Bool.and_eq_true] at *
      rw [if_neg (by simp [hls])]
      exact ih (fun p hp => h p (List.mem_cons_of_mem q hp))

lemma runExecs_noSources :
    ∀ (execs : List (String × ToolArgs)) (mgr mgr' : ToolManager),
      noSources mgr.tools →
      (∀ p ∈ execs, ∀ tool, dictGet mgr.tools p.1 = some tool →
          tool.hasLastSources = false) →
      runExecs mgr execs = Except.ok mgr' →
      noSources mgr'.tools := by
  intro execs
  induction execs with
  | nil =>
    intro mgr mgr' hns _ h
    simp only [runExecs, Except.ok.injEq] at h
    rw [← h]
    exact hns
  | cons e rest ih =>
    intro mgr mgr' hns hdisp h
    simp only [runExecs] at h
    cases hex : mgr.execute_tool e.1 e.2 with
    | error f => rw [hex] at h; exact absurd h (by simp)
    | ok pr =>
      rw [hex] at h
      refine ih pr.2 mgr' ?_ ?_ h
      · exact execute_tool_noSources mgr e.1 e.2 pr.1 pr.2 hns
          (hdisp e (by simp)) (by rw [hex])
      · intro p hp tool htool
        have hpres := execute_tool_hasLS mgr e.1 e.2 pr.1 pr.2 (by rw [hex]) p.1
        rw [htool] at hpres
        cases hg : dictGet mgr.tools p.1 with
        | none => rw [hg] at hpres; exact absurd hpres (by simp)
        | some tool0 =>
          rw [hg] at hpres
          simp at hpres
          rw [hpres]
          exact hdisp p (List.mem_cons_of_mem e hp) tool0 hg

/-- Claim C9: after `reset_sources()`, every source-tracking tool's state
is cleared, so a subsequent sequence of tool executions that only ever
dispatches to tools without a `last_sources` attribute (such as
`CourseOutlineTool`, which does not populate sources) leaves
`get_last_sources()` empty; in general `get_last_sources()` returns the
first non-empty source list across the registered tools in registration
order, or `[]` when no registered tool holds a non-empty source list. -/
theorem sources_reset_and_first_nonempty :
    (∀ (mgr : ToolManager) (execs : List (String × ToolArgs)) (mgr' : ToolManager),
        (∀ p ∈ execs, ∀ tool, dictGet mgr.reset_sources.tools p.1 = some tool →
            tool.hasLastSources = false) →
        runExecs mgr.reset_sources execs = Except.ok mgr' →
        mgr'.get_last_sources = [])
    ∧ (∀ (l1 l2 : List (String × MTool)) (k : String) (t : MTool),
        (∀ p ∈ l1, p.2.hasLastSources = false ∨ p.2.last_sources = []) →
        t.hasLastSources = true → t.last_sources ≠ [] →
        ToolManager.get_last_sources { tools := l1 ++ (k, t) :: l2 }
          = t.last_sources)
    ∧ (∀ (mgr : ToolManager),
        (∀ p ∈ mgr.tools, p.2.hasLastSources = false ∨ p.2.last_sources = []) →
        mgr.get_last_sources = []) := by
  refine ⟨?_, ?_, ?_⟩
  · intro mgr execs mgr' hdisp hrun
    exact noSources_scan mgr'.tools
      (runExecs_noSources execs mgr.reset_sources mgr'
        (reset_sources_noSources mgr) hdisp hrun)
  · intro l1 l2 k t h1 hls hne
    induction l1 with
    | nil =>
      simp only [List.nil_append, ToolManager.get_last_sources, lastSourcesScan,
        hls, Bool.true_and]
      rw [if_pos (by simp [List.isEmpty_iff, hne])]
    | cons q rest ih =>
      have hq := h1 q (by simp)
      have hcond : (q.2.hasLastSources && !q.2.last_sources.isEmpty) = false := by
        rcases hq with h | h <;> simp [h]
      simp only [List.cons_append, ToolManager.get_last_sources, lastSourcesScan,
        hcond, Bool.false_eq_true, if_false]
      exact ih (fun p hp => h1 p (List.mem_cons_of_mem q hp))
  · intro mgr h
    refine noSources_scan mgr.tools ?_
    intro p hp hls
    rcases h p hp with hc | hc
    · exact absurd hls (by simp [hc])
    · exact hc

/-- Search-tool registry fixture for the claim C9 witness: tracks
sources and currently holds one stale source entry. -/
def wSearchMTool : MTool :=
  { tool_def_name := some "search_course_content"
    hasLastSources := true
    last_sources := [{ text := "Course C - Lesson 1", link := none }]
    run := fun _ ls => Except.ok ("search result", ls) }

/-- Outline store fixture for the claim C9 witness. -/
def wOutlineStore : OutlineStore :=
  { resolve_course_name := fun _ => Except.ok (some "X")
    catalog_get := fun _ => Except.ok (some
      { title := some "X", course_link := none, instructor := none,
        lessons_json := some [] }) }

/-- Manager fixture for the claim C9 witness: a source-tracking search
tool with stale sources, plus the outline tool. -/
def wMgr : ToolManager :=
  { tools := [("search_course_content", wSearchMTool),
              ("get_course_outline", CourseOutlineTool.toMTool wOutlineStore)] }

/-- The execution sequence of the claim C9 witness: one outline call. -/
def wExecs : List (String × ToolArgs) :=
  [("get_course_outline", [("course_title", "X")])]

/-- The manager state after `reset_sources` and the outline-only
execution sequence of the claim C9 witness. -/
def wMgrAfter : ToolManager :=
  { tools := [("search_course_content", { wSearchMTool with last_sources := [] }),
              ("get_course_outline", CourseOutlineTool.toMTool wOutlineStore)] }

/-- Claim C9 witness: resetting the concrete manager and then executing
only the outline tool leaves `get_last_sources()` empty. -/
theorem sources_reset_and_first_nonempty_witness :
    ToolManager.get_last_sources wMgrAfter = [] :=
  sources_reset_and_first_nonempty.1 wMgr wExecs wMgrAfter
    (by
      intro p hp tool htool
      simp only [wExecs, List.mem_singleton] at hp
      subst hp
      simp only [wMgr, ToolManager.reset_sources, dictGet, wSearchMTool,
        CourseOutlineTool.toMTool, List.map_cons, List.map_nil,
        String.reduceEq, if_false, if_true, reduceIte, Option.some.injEq] at htool
      rw [← htool]
      rfl)
    (by rfl)
